import Mathlib

/-!
Shallow embedding of the event-driven economic-simulation core of
`agent_based_macro` (files `base_simulation.py`, `orders.py`, `simulation.py`,
`entity.py`), together with theorems settling the frozen claims about it.

Python integers are modelled as `Int`; simulation times (Python floats used
only for ordering and addition by whole fractions) are modelled as `ℚ`.
Python exceptions are modelled with `Except`; because several claims concern
what state a method leaves behind *when it raises*, every ledger mutation
returns `Except (Err × State) State`: the error value carries the state as it
stood at the moment the exception was raised, so partial mutation before a
raise is observable.
-/

namespace ABM

/-- ReserveType enum from `base_simulation.py` (NONE/ORDERS/TAX/WAGES). -/
inductive ReserveType
  | NONE
  | ORDERS
  | TAX
  | WAGES
  deriving DecidableEq

/-- Error taxonomy used by the ledger methods: `NoMoneyError`,
`NoFreeMoneyError`, `ReserveError` (subclasses of `SimulationError`) and
Python's builtin `ValueError`. -/
inductive LedgerErr
  | noMoney
  | noFreeMoney
  | reserveErr
  | valueErr
  deriving DecidableEq

/-- OrderType enum from `orders.py`. -/
inductive OrderType
  | BUY
  | SELL
  deriving DecidableEq

/-- Per-commodity inventory record `InventoryInfo` from `base_simulation.py`:
`Amount` units on hand, `Cost` total capitalised cost, `Reserved` units
pledged to outstanding sell orders. -/
structure InventoryInfo where
  CommodityID : Int
  Amount : Int
  Cost : Int
  Reserved : Int
  deriving DecidableEq

/-- `InventoryInfo.add_inventory(amount, cost)`: rejects negative `amount`
(before any mutation), otherwise adds to both `Amount` and `Cost`. -/
def addInventory (inv : InventoryInfo) (amount cost : Int) :
    Except (LedgerErr × InventoryInfo) InventoryInfo :=
  if amount < 0 then .error (.valueErr, inv)
  else .ok { inv with Amount := inv.Amount + amount, Cost := inv.Cost + cost }

/-- `InventoryInfo.change_reserves(amount)`. The over-reserve check runs
before the mutation, but the negative-reserve check runs *after*
`self.Reserved += amount`, so that error leaves the mutated value behind. -/
def invChangeReserves (inv : InventoryInfo) (amount : Int) :
    Except (LedgerErr × InventoryInfo) InventoryInfo :=
  if amount + inv.Reserved > inv.Amount then .error (.valueErr, inv)
  else
    let inv' := { inv with Reserved := inv.Reserved + amount }
    if inv'.Reserved < 0 then .error (.valueErr, inv')
    else .ok inv'

/-- Round `num / den` to the nearest integer, ties to even — the behaviour of
Python's builtin `round` (used on the exact rational value; the source rounds
the float quotient, which agrees on every quotient a float represents
exactly). Intended for `den > 0`. -/
def roundHalfEven (num den : Int) : Int :=
  let q := Int.fdiv num den
  let r := num - q * den
  if 2 * r < den then q
  else if den < 2 * r then q + 1
  else if q % 2 = 0 then q else q + 1

/-- Tail of `InventoryInfo.remove_inventory` after the validation/reserve
phase: compute COGS (all of `Cost` on full removal, otherwise the rounded
proportional share), then decrement `Cost` and `Amount`. -/
def finishRemove (inv1 : InventoryInfo) (amount : Int) :
    Except (LedgerErr × InventoryInfo) (Int × InventoryInfo) :=
  let cogs := if amount = inv1.Amount then inv1.Cost
              else roundHalfEven (inv1.Cost * amount) inv1.Amount
  .ok (cogs, { inv1 with Cost := inv1.Cost - cogs, Amount := inv1.Amount - amount })

/-- `InventoryInfo.remove_inventory(amount, from_reserve)`: validates the
amount, then either checks the unreserved pool (`from_reserve=False`) or
checks and decrements the reserved pool, then computes COGS and removes. -/
def removeInventory (inv : InventoryInfo) (amount : Int) (fromReserve : Bool) :
    Except (LedgerErr × InventoryInfo) (Int × InventoryInfo) :=
  if amount < 0 then .error (.valueErr, inv)
  else if amount > inv.Amount then .error (.valueErr, inv)
  else if fromReserve = false then
    if amount > inv.Amount - inv.Reserved then .error (.valueErr, inv)
    else finishRemove inv amount
  else
    if amount > inv.Reserved then .error (.valueErr, inv)
    else finishRemove { inv with Reserved := inv.Reserved - amount } amount

/-- Money-ledger slice of `Agent` state: cash balance, the aggregate reserve
and the three reservation buckets, the central-government exemption flag, and
the per-commodity inventory dictionary (association list, insertion order). -/
structure AgentState where
  Money : Int
  ReserveMoney : Int
  ReserveWages : Int
  ReserveTax : Int
  ReserveOrders : Int
  IsCentralGovernment : Bool
  Inventory : List (Int × InventoryInfo)
  deriving DecidableEq

/-- `Agent.spend_money(amount, from_reserve)` translated line by line.
A negative amount with a reserve raises; a negative amount without a reserve
delegates to `receive_money(-amount)` (an unconditional credit).  After the
per-branch checks and bucket updates, the source's two trailing statements
`self.Money -= amount; self.ReserveMoney -= amount` sit *after* the whole
if/elif chain, so they execute in every non-raising branch — including the
`NONE` branch, which has already subtracted `Money` once on its own. -/
def spendMoney (a : AgentState) (amount : Int) (fromReserve : ReserveType) :
    Except (LedgerErr × AgentState) AgentState :=
  if amount < 0 then
    if ¬ (ReserveType.NONE = fromReserve) then .error (.valueErr, a)
    else .ok { a with Money := a.Money + (-amount) }
  else if amount > a.Money then .error (.noMoney, a)
  else
    match fromReserve with
    | .NONE =>
      if amount + a.ReserveMoney > a.Money then .error (.noFreeMoney, a)
      else .ok { a with Money := a.Money - amount - amount,
                        ReserveMoney := a.ReserveMoney - amount }
    | .ORDERS =>
      if amount > a.ReserveOrders then .error (.noFreeMoney, a)
      else .ok { a with ReserveOrders := a.ReserveOrders - amount,
                        Money := a.Money - amount,
                        ReserveMoney := a.ReserveMoney - amount }
    | .WAGES =>
      if amount > a.ReserveWages then .error (.noFreeMoney, a)
      else .ok { a with ReserveWages := a.ReserveWages - amount,
                        Money := a.Money - amount,
                        ReserveMoney := a.ReserveMoney - amount }
    | .TAX =>
      if amount > a.ReserveTax then .error (.noFreeMoney, a)
      else .ok { a with ReserveTax := a.ReserveTax - amount,
                        Money := a.Money - amount,
                        ReserveMoney := a.ReserveMoney - amount }

/-- `Agent.receive_money(amount)`: a negative amount delegates to
`spend_money(-amount)`, otherwise `Money` is credited unconditionally. -/
def receiveMoney (a : AgentState) (amount : Int) :
    Except (LedgerErr × AgentState) AgentState :=
  if amount < 0 then spendMoney a (-amount) ReserveType.NONE
  else .ok { a with Money := a.Money + amount }

/-- `CentralGovernment.spend_money` override: unconditional, ignores all
reserve checks, may go arbitrarily negative. -/
def centralGovSpendMoney (a : AgentState) (amount : Int) : AgentState :=
  { a with Money := a.Money - amount }

/-- `Agent.change_reserves(change, reserve_type)`: an increase checks
headroom (skipped for central-government agents) and then bumps the chosen
bucket plus the aggregate; a decrease checks the chosen bucket's balance and
then lowers the bucket plus the aggregate.  Every raise happens before any
field is touched. -/
def changeReserves (a : AgentState) (change : Int) (reserveType : ReserveType) :
    Except (LedgerErr × AgentState) AgentState :=
  if change > 0 then
    if (a.IsCentralGovernment = false) ∧ (change + a.ReserveMoney > a.Money) then
      .error (.noFreeMoney, a)
    else
      match reserveType with
      | .ORDERS => .ok { a with ReserveOrders := a.ReserveOrders + change,
                                ReserveMoney := a.ReserveMoney + change }
      | .TAX => .ok { a with ReserveTax := a.ReserveTax + change,
                             ReserveMoney := a.ReserveMoney + change }
      | .WAGES => .ok { a with ReserveWages := a.ReserveWages + change,
                               ReserveMoney := a.ReserveMoney + change }
      | .NONE => .error (.valueErr, a)
  else
    match reserveType with
    | .ORDERS =>
      if a.ReserveOrders ≥ -change then
        .ok { a with ReserveOrders := a.ReserveOrders + change,
                     ReserveMoney := a.ReserveMoney + change }
      else .error (.reserveErr, a)
    | .WAGES =>
      if a.ReserveWages ≥ -change then
        .ok { a with ReserveWages := a.ReserveWages + change,
                     ReserveMoney := a.ReserveMoney + change }
      else .error (.reserveErr, a)
    | .TAX =>
      if a.ReserveTax ≥ -change then
        .ok { a with ReserveTax := a.ReserveTax + change,
                     ReserveMoney := a.ReserveMoney + change }
      else .error (.reserveErr, a)
    | .NONE => .error (.valueErr, a)

/-- `Inventory.__getitem__`: look the commodity up in the dictionary,
creating (and recording) a zeroed `InventoryInfo` lazily on first access. -/
def getInventory (d : List (Int × InventoryInfo)) (cid : Int) :
    InventoryInfo × List (Int × InventoryInfo) :=
  match d.find? (fun p => p.1 == cid) with
  | Option.none =>
    let fresh : InventoryInfo := { CommodityID := cid, Amount := 0, Cost := 0, Reserved := 0 }
    (fresh, d ++ [(cid, fresh)])
  | some p => (p.2, d)

/-- Write an updated `InventoryInfo` back into the dictionary (models the
in-place mutation of the object stored under `cid`). -/
def setInventory (d : List (Int × InventoryInfo)) (cid : Int) (inv : InventoryInfo) :
    List (Int × InventoryInfo) :=
  d.map (fun p => if p.1 == cid then (cid, inv) else p)

/-- `Agent.buy_goods(commodity_id, amount, payment)`: spend from the ORDERS
bucket, then add the goods (at cost `payment`) to inventory. -/
def buyGoods (a : AgentState) (cid amount payment : Int) :
    Except (LedgerErr × AgentState) AgentState :=
  match spendMoney a payment ReserveType.ORDERS with
  | .error e => .error e
  | .ok a1 =>
    let (inv, d1) := getInventory a1.Inventory cid
    match addInventory inv amount payment with
    | .error (e, invE) => .error (e, { a1 with Inventory := setInventory d1 cid invE })
    | .ok inv' => .ok { a1 with Inventory := setInventory d1 cid inv' }

/-- `Agent.sell_goods(commodity_id, amount, payment)`: receive the payment,
then remove the sold units from the reserved inventory pool (COGS is
computed and discarded by the caller). -/
def sellGoods (a : AgentState) (cid amount payment : Int) :
    Except (LedgerErr × AgentState) AgentState :=
  match receiveMoney a payment with
  | .error e => .error e
  | .ok a1 =>
    let (inv, d1) := getInventory a1.Inventory cid
    match removeInventory inv amount true with
    | .error (e, invE) => .error (e, { a1 with Inventory := setInventory d1 cid invE })
    | .ok (_cogs, inv') => .ok { a1 with Inventory := setInventory d1 cid inv' }

/-- `Agent.do_accounting_buy(operation, amount, price, commodity_id)`. -/
def doAccountingBuy (a : AgentState) (operation : String) (amount price cid : Int) :
    Except (LedgerErr × AgentState) AgentState :=
  if operation = "add" then changeReserves a (amount * price) ReserveType.ORDERS
  else if operation = "fill" then buyGoods a cid amount (amount * price)
  else if operation = "remove" then changeReserves a (-(amount * price)) ReserveType.ORDERS
  else .error (.valueErr, a)

/-- `Agent.do_accounting_sell(operation, amount, price, commodity_id)`. -/
def doAccountingSell (a : AgentState) (operation : String) (amount price cid : Int) :
    Except (LedgerErr × AgentState) AgentState :=
  if operation = "add" then
    let (inv, d1) := getInventory a.Inventory cid
    match invChangeReserves inv amount with
    | .error (e, invE) => .error (e, { a with Inventory := setInventory d1 cid invE })
    | .ok inv' => .ok { a with Inventory := setInventory d1 cid inv' }
  else if operation = "fill" then sellGoods a cid amount (amount * price)
  else if operation = "remove" then
    let (inv, d1) := getInventory a.Inventory cid
    match invChangeReserves inv (-amount) with
    | .error (e, invE) => .error (e, { a with Inventory := setInventory d1 cid invE })
    | .ok inv' => .ok { a with Inventory := setInventory d1 cid inv' }
  else .error (.valueErr, a)

/-- `Agent.do_accounting(order_type, operation, amount, price, commodity_id)`:
a zero amount returns immediately; otherwise dispatch on order type. -/
def doAccounting (a : AgentState) (orderT : OrderType) (operation : String)
    (amount price cid : Int) : Except (LedgerErr × AgentState) AgentState :=
  if amount = 0 then .ok a
  else
    match orderT with
    | .BUY => doAccountingBuy a operation amount price cid
    | .SELL => doAccountingSell a operation amount price cid

/-- Order record from `orders.py` (`BaseOrder` and its two subclasses share
these fields; the buy/sell distinction lives in the comparison used for
queue insertion). `OrderID` is negative, disjoint from entity ids. -/
structure Order where
  Price : Int
  Amount : Int
  FirmGID : Int
  OrderID : Int
  KeepInQueue : Bool
  deriving DecidableEq

/-- `BuyOrder.__lt__`: a buy order sorts earlier when its price is higher. -/
def buyLT (a b : Order) : Bool := decide (a.Price > b.Price)

/-- `SellOrder.__lt__`: a sell order sorts earlier when its price is lower. -/
def sellLT (a b : Order) : Bool := decide (a.Price < b.Price)

/-- Binary search of Python's `bisect.bisect_right` (`lo/hi` bracket, probe
at `(lo+hi)//2`, move `hi` down when `x < a[mid]`, else move `lo` up), with
explicit fuel standing in for the loop; `a.length` fuel always suffices
because the bracket shrinks every iteration.  The `getD` default is never
used: the probe index is below `hi ≤ a.length`. -/
def bisectRightGo (lt : α → α → Bool) (a : List α) (x : α) :
    Nat → Nat → Nat → Nat
  | 0, lo, _hi => lo
  | fuel + 1, lo, hi =>
    if lo < hi then
      if lt x (a.getD ((lo + hi) / 2) x) then bisectRightGo lt a x fuel lo ((lo + hi) / 2)
      else bisectRightGo lt a x fuel ((lo + hi) / 2 + 1) hi
    else lo

/-- `bisect.bisect_right(a, x)` over the whole list. -/
def bisectRight (lt : α → α → Bool) (a : List α) (x : α) : Nat :=
  bisectRightGo lt a x a.length 0 a.length

/-- Python's `list.insert(idx, x)`. -/
def listInsert (a : List α) (idx : Nat) (x : α) : List α :=
  a.take idx ++ x :: a.drop idx

/-- `bisect.insort_right(a, x)`, the body of `OrderQueue.insert_order`:
insert at the rightmost position compatible with the sort, i.e. after any
existing entries that compare equal. -/
def insortRight (lt : α → α → Bool) (a : List α) (x : α) : List α :=
  listInsert a (bisectRight lt a x) x

/-- `OrderQueue.check_empty`: pop the front order when its Amount is zero. -/
def checkEmpty (orders : List Order) : List Order :=
  match orders with
  | [] => []
  | o :: rest => if o.Amount = 0 then rest else o :: rest

/-- One accounting notification, i.e. one call to
`MarketBase.do_accounting(firm_gid, order_type, operation, amount, price)`. -/
structure AcctEntry where
  FirmGID : Int
  OrderT : OrderType
  Operation : String
  Amount : Int
  Price : Int
  deriving DecidableEq

/-- `MarketBase` state: the two queues and the last-trade price/time. -/
structure MarketState where
  BuyList : List Order
  SellList : List Order
  LastPrice : Option Int
  LastTime : Option Int
  deriving DecidableEq

/-- `MarketBase.get_time` always returns 0 in the base class. -/
def getTimeBase : Int := 0

/-- Matching loop of `MarketBase.add_buy`, recursing over the sell queue.
Each iteration either rests/discards the incoming order (no cross), or
trades at the resting ask for `min` of the two remaining amounts, emitting a
buy-side and a sell-side fill notification, decrementing both orders and
running `check_empty`. The Python loop only continues when the incoming
order still has remaining amount, which forces the fill to have consumed the
whole resting head (`amount = s.Amount`), so `check_empty` has dropped it and
the continuation runs on `rest`. -/
def addBuyLoop :
    List Order → Option Int → Option Int → List AcctEntry → Order → List Order →
      MarketState × List AcctEntry
  | buyList, lastPrice, lastTime, log, buyOrder, [] =>
    if buyOrder.KeepInQueue then
      ({ BuyList := insortRight buyLT buyList buyOrder, SellList := [],
         LastPrice := lastPrice, LastTime := lastTime }, log)
    else
      ({ BuyList := buyList, SellList := [], LastPrice := lastPrice, LastTime := lastTime },
       log ++ [⟨buyOrder.FirmGID, OrderType.BUY, "remove", buyOrder.Amount, buyOrder.Price⟩])
  | buyList, lastPrice, lastTime, log, buyOrder, s :: rest =>
    if buyOrder.Price < s.Price then
      if buyOrder.KeepInQueue then
        ({ BuyList := insortRight buyLT buyList buyOrder, SellList := s :: rest,
           LastPrice := lastPrice, LastTime := lastTime }, log)
      else
        ({ BuyList := buyList, SellList := s :: rest,
           LastPrice := lastPrice, LastTime := lastTime },
         log ++ [⟨buyOrder.FirmGID, OrderType.BUY, "remove", buyOrder.Amount, buyOrder.Price⟩])
    else
      if buyOrder.Amount - min s.Amount buyOrder.Amount = 0 then
        ({ BuyList := buyList,
           SellList := checkEmpty
             ({ s with Amount := s.Amount - min s.Amount buyOrder.Amount } :: rest),
           LastPrice := some s.Price, LastTime := some getTimeBase },
         log ++ [⟨buyOrder.FirmGID, OrderType.BUY, "fill", min s.Amount buyOrder.Amount, s.Price⟩,
                 ⟨s.FirmGID, OrderType.SELL, "fill", min s.Amount buyOrder.Amount, s.Price⟩])
      else
        addBuyLoop buyList (some s.Price) (some getTimeBase)
          (log ++ [⟨buyOrder.FirmGID, OrderType.BUY, "fill", min s.Amount buyOrder.Amount, s.Price⟩,
                   ⟨s.FirmGID, OrderType.SELL, "fill", min s.Amount buyOrder.Amount, s.Price⟩])
          { buyOrder with Amount := buyOrder.Amount - min s.Amount buyOrder.Amount } rest

/-- `MarketBase.add_buy(buy_order)`: notify accounting with operation `add`,
then run the matching loop against the sell queue. -/
def addBuy (m : MarketState) (buyOrder : Order) : MarketState × List AcctEntry :=
  addBuyLoop m.BuyList m.LastPrice m.LastTime
    [⟨buyOrder.FirmGID, OrderType.BUY, "add", buyOrder.Amount, buyOrder.Price⟩]
    buyOrder m.SellList

/-- Matching loop of `MarketBase.add_sell` — the mirror image of
`addBuyLoop`, recursing over the buy queue and trading at the resting bid. -/
def addSellLoop :
    List Order → Option Int → Option Int → List AcctEntry → Order → List Order →
      MarketState × List AcctEntry
  | sellList, lastPrice, lastTime, log, sellOrder, [] =>
    if sellOrder.KeepInQueue then
      ({ BuyList := [], SellList := insortRight sellLT sellList sellOrder,
         LastPrice := lastPrice, LastTime := lastTime }, log)
    else
      ({ BuyList := [], SellList := sellList, LastPrice := lastPrice, LastTime := lastTime },
       log ++ [⟨sellOrder.FirmGID, OrderType.SELL, "remove", sellOrder.Amount, sellOrder.Price⟩])
  | sellList, lastPrice, lastTime, log, sellOrder, b :: rest =>
    if sellOrder.Price > b.Price then
      if sellOrder.KeepInQueue then
        ({ BuyList := b :: rest, SellList := insortRight sellLT sellList sellOrder,
           LastPrice := lastPrice, LastTime := lastTime }, log)
      else
        ({ BuyList := b :: rest, SellList := sellList,
           LastPrice := lastPrice, LastTime := lastTime },
         log ++ [⟨sellOrder.FirmGID, OrderType.SELL, "remove", sellOrder.Amount, sellOrder.Price⟩])
    else
      if sellOrder.Amount - min b.Amount sellOrder.Amount = 0 then
        ({ BuyList := checkEmpty
             ({ b with Amount := b.Amount - min b.Amount sellOrder.Amount } :: rest),
           SellList := sellList,
           LastPrice := some b.Price, LastTime := some getTimeBase },
         log ++ [⟨sellOrder.FirmGID, OrderType.SELL, "fill", min b.Amount sellOrder.Amount, b.Price⟩,
                 ⟨b.FirmGID, OrderType.BUY, "fill", min b.Amount sellOrder.Amount, b.Price⟩])
      else
        addSellLoop sellList (some b.Price) (some getTimeBase)
          (log ++ [⟨sellOrder.FirmGID, OrderType.SELL, "fill", min b.Amount sellOrder.Amount, b.Price⟩,
                   ⟨b.FirmGID, OrderType.BUY, "fill", min b.Amount sellOrder.Amount, b.Price⟩])
          { sellOrder with Amount := sellOrder.Amount - min b.Amount sellOrder.Amount } rest

/-- `MarketBase.add_sell(sell_order)`. -/
def addSell (m : MarketState) (sellOrder : Order) : MarketState × List AcctEntry :=
  addSellLoop m.SellList m.LastPrice m.LastTime
    [⟨sellOrder.FirmGID, OrderType.SELL, "add", sellOrder.Amount, sellOrder.Price⟩]
    sellOrder m.BuyList

/-- Scheduler's view of an `Event` (`simulation.py`): target entity id, fire
time, optional repeat period.  Times are exact rationals standing for the
source's floats. -/
structure SchedEvent where
  GID : Int
  CallTime : ℚ
  RepeatPeriod : Option ℚ
  deriving DecidableEq

/-- `Event.__lt__` compares call times. -/
def eventLT (e1 e2 : SchedEvent) : Bool := decide (e1.CallTime < e2.CallTime)

/-- `queue_event`: `insort_right` into the global event list. -/
def queueEvent (lst : List SchedEvent) (e : SchedEvent) : List SchedEvent :=
  insortRight eventLT lst e

/-- Outcomes of `Entity.get_entity`: `EntityDoesNotExist` (gid unmapped) or
`EntityDead` (mapped but `IsDead`). -/
inductive EntityLookupFail
  | doesNotExist
  | dead
  deriving DecidableEq

/-- Static `Entity.get_entity(gid)` (entity.py lines 79-100) over the
registry, modelled as an association list of (gid, IsDead): an unmapped gid
raises `EntityDoesNotExist`, a mapped-but-dead one raises `EntityDead`.
Callbacks and data requests resolve entities through this method; the
target resolution in `Simulation.process_event` does *not* — it goes
through the instance method `Simulation.get_entity`, see `simGetEntity`. -/
def getEntity (entities : List (Int × Bool)) (gid : Int) :
    Except EntityLookupFail (Int × Bool) :=
  match entities.find? (fun p => p.1 == gid) with
  | Option.none => .error .doesNotExist
  | some p => if p.2 then .error .dead else .ok p

/-- Instance method `Simulation.get_entity(gid)` (simulation.py lines
292-298), which shadows the static `Entity.get_entity` and is what
`process_event` uses to resolve the popped event's target: a bare
`GEntityDict[gid]` access.  A missing gid raises a *plain* `KeyError`
(modelled as `.error ()`), and the `IsDead` flag is never consulted, so a
dead-but-still-referenced entity is returned like any live one. -/
def simGetEntity (entities : List (Int × Bool)) (gid : Int) :
    Except Unit (Int × Bool) :=
  match entities.find? (fun p => p.1 == gid) with
  | Option.none => .error ()
  | some p => .ok p

/-- Scheduler-relevant slice of `Simulation` state. -/
structure SchedState where
  Time : ℚ
  EventList : List SchedEvent
  Entities : List (Int × Bool)
  ClientCommands : List Unit
  ClientMessages : List Unit
  deriving DecidableEq

/-- Python exceptions arising while firing an event: the *plain* `KeyError`
raised by `Simulation.get_entity`'s bare dict access for a missing target,
the `EntityDoesNotExist`/`EntityDead` subclasses of `KeyError` (raised only
by static `Entity.get_entity` calls inside the event's body), the
`NotImplementedError` that `process` re-raises on `EntityDead`, the
`ValueError` for a too-small repeat period, and any other body error. -/
inductive SimExc
  | keyError
  | entityDoesNotExist
  | entityDead
  | notImplemented
  | badRepeat
  | bodyError
  deriving DecidableEq

/-- `Simulation.process()`: one unit of work — a pending client command, a
pending client message, or the earliest due event.  The event is popped and
`process_event` resolves its target through `Simulation.get_entity` (the
bare dict lookup `simGetEntity`): a missing gid raises a plain `KeyError`,
which `except EntityDoesNotExist` does *not* catch (`EntityDoesNotExist` is
a subclass of `KeyError`, not a superclass), so it propagates out of
`process`; a dead entity resolves normally, so its event fires like any
other.  The body (data requests + callback + action drain, abstracted as
`runBody`, whose errors carry the state left behind at the raise) runs
next; an `EntityDoesNotExist` raised *inside the body* is caught and the
step returns `True` with no re-queue, an `EntityDead` from the body is
re-raised as `NotImplementedError`, any other body exception propagates.
Finally a repeating event is re-queued at `CallTime + Repeat` unless the
period is below 0.01 (`ValueError`). -/
def processStep
    (runBody : SchedEvent → SchedState → Except (SimExc × SchedState) SchedState)
    (s : SchedState) : Except SimExc (Bool × SchedState) :=
  match s.ClientCommands with
  | _ :: restC => .ok (true, { s with ClientCommands := restC })
  | [] =>
  match s.ClientMessages with
  | _ :: restM => .ok (true, { s with ClientMessages := restM })
  | [] =>
  match s.EventList with
  | [] => .ok (false, s)
  | e :: rest =>
    if s.Time ≥ e.CallTime then
      let s1 := { s with EventList := rest }
      match simGetEntity s1.Entities e.GID with
      | .error _ => .error .keyError
      | .ok _ =>
        match runBody e s1 with
        | .error (.entityDoesNotExist, sE) => .ok (true, sE)
        | .error (.entityDead, _sE) => .error .notImplemented
        | .error (f, _sE) => .error f
        | .ok s2 =>
          match e.RepeatPeriod with
          | Option.none => .ok (true, s2)
          | some r =>
            if r < (1 : ℚ) / 100 then .error .badRepeat
            else
              let e' := { e with CallTime := e.CallTime + r }
              .ok (true, { s2 with EventList := queueEvent s2.EventList e' })
    else .ok (false, s)

/-- `ActionOverflow`: the `ValueError` raised by the action-drain loop. -/
inductive PipelineErr
  | actionOverflow
  deriving DecidableEq

/-- `Simulation.MaxActionLimit` default. -/
def MaxActionLimit : Nat := 100

/-- Action-drain loop at the end of `Simulation.process_event`: while the
queue is non-empty, bump the counter, raise `ValueError` when the counter
reaches the limit, otherwise pop the front action and run it (a handler may
append further actions, here `handler action`).  `fuel` stands for the
unguarded Python `while True`; `none` models non-termination and is never
returned when `fuel ≥ limit - cnt` and `cnt < limit`.  On success the final
counter value (the number of actions processed) is returned. -/
def drainGo (handler : α → List α) (limit : Nat) :
    Nat → Nat → List α → Option (Except PipelineErr Nat)
  | 0, _cnt, _queue => Option.none
  | fuel + 1, cnt, queue =>
    match queue with
    | [] => some (.ok cnt)
    | action :: rest =>
      let cnt' := cnt + 1
      if cnt' = limit then some (.error .actionOverflow)
      else drainGo handler limit fuel cnt' (rest ++ handler action)

/-- System-wide money total: the central government's balance plus every
ordinary agent's balance. -/
def moneySum (gov : Int) (agents : List AgentState) : Int :=
  gov + (agents.map (fun a => a.Money)).sum

/-- `BaseSimulation.add_entity` restricted to its money effect: admit the
agent and subtract its starting balance from the central government. -/
def addEntity (gov : Int) (agents : List AgentState) (a : AgentState) :
    Int × List AgentState :=
  (gov - a.Money, agents ++ [a])

/-- Reservation invariant of the spec: the three buckets sum to the
aggregate, and the aggregate never exceeds the cash balance. -/
def reserveInvariant (a : AgentState) : Prop :=
  a.ReserveOrders + a.ReserveWages + a.ReserveTax = a.ReserveMoney ∧
    a.ReserveMoney ≤ a.Money

instance (a : AgentState) : Decidable (reserveInvariant a) := by
  unfold reserveInvariant; infer_instance

/-- C1: the claim says the zero money sum is preserved by every core
operation, in particular by a spend/receive transfer (the `PayWages` handler
runs `agent.spend_money(amount)` paired with the household's
`receive_money(amount)`).  It is not: `add_entity` does keep the sum at
zero, but a wage payment of 3 by a firm holding 10 with no reserves drives
the firm's balance down by 6 (the `NONE` branch of `spend_money` subtracts
`Money` twice), so the system-wide sum drops from 0 to -3. -/
theorem solvency_sum_broken_by_spend_receive_pair :
    addEntity 0 [] ⟨10, 0, 0, 0, 0, false, []⟩
      = (-10, [⟨10, 0, 0, 0, 0, false, []⟩]) ∧
    addEntity (-10) [⟨10, 0, 0, 0, 0, false, []⟩] ⟨0, 0, 0, 0, 0, false, []⟩
      = (-10, [⟨10, 0, 0, 0, 0, false, []⟩, ⟨0, 0, 0, 0, 0, false, []⟩]) ∧
    moneySum (-10) [⟨10, 0, 0, 0, 0, false, []⟩, ⟨0, 0, 0, 0, 0, false, []⟩] = 0 ∧
    spendMoney ⟨10, 0, 0, 0, 0, false, []⟩ 3 ReserveType.NONE
      = .ok ⟨4, -3, 0, 0, 0, false, []⟩ ∧
    receiveMoney ⟨0, 0, 0, 0, 0, false, []⟩ 3 = .ok ⟨3, 0, 0, 0, 0, false, []⟩ ∧
    moneySum (-10) [⟨4, -3, 0, 0, 0, false, []⟩, ⟨3, 0, 0, 0, 0, false, []⟩] = -3 :=
  ⟨rfl, rfl, rfl, rfl, rfl, rfl⟩

/-- C2: the claim says a successful `spend_money(amount, from_reserve)`
lowers `Money` by exactly `amount` in every branch.  In the
`from_reserve=NONE` branch the source subtracts `Money` at line 288 and then
again in the trailing statement after the if/elif chain: spending 3 out of
10 with empty reserves leaves `Money = 4`, a decrease of 6, and drags
`ReserveMoney` down to -3 as a side effect. -/
theorem spend_money_none_branch_double_subtracts :
    spendMoney ⟨10, 0, 0, 0, 0, false, []⟩ 3 ReserveType.NONE
      = .ok ⟨4, -3, 0, 0, 0, false, []⟩ ∧ ¬ ((10 : Int) - 4 = 3) :=
  ⟨rfl, by decide⟩

/-- C3: the claim says `ReserveOrders + ReserveWages + ReserveTax =
ReserveMoney ≤ Money` holds in every reachable state and is preserved by
`spend_money`.  The `NONE` branch of `spend_money` lowers `ReserveMoney` by
`amount` without touching any bucket: a state satisfying the invariant
(all reserves 0, `Money = 10`) is taken by `spend_money(3)` to a state with
bucket sum 0 but `ReserveMoney = -3`. -/
theorem spend_money_none_branch_breaks_reserve_identity :
    reserveInvariant ⟨10, 0, 0, 0, 0, false, []⟩ ∧
    spendMoney ⟨10, 0, 0, 0, 0, false, []⟩ 3 ReserveType.NONE
      = .ok ⟨4, -3, 0, 0, 0, false, []⟩ ∧
    ¬ reserveInvariant ⟨4, -3, 0, 0, 0, false, []⟩ :=
  ⟨by decide, rfl, by decide⟩

/-- C4 counterexample: `InventoryInfo.change_reserves(-3)` on a lot with
`Amount = 5`, `Reserved = 2` raises the negative-reserve `ValueError`, but
only after `self.Reserved += amount` has run: the raising call leaves
`Reserved = -1`, not the original 2 — so not every ledger mutation method is
side-effect-free on rejection. -/
theorem inv_change_reserves_mutates_before_raise :
    invChangeReserves ⟨1, 5, 0, 2⟩ (-3) = .error (.valueErr, ⟨1, 5, 0, -1⟩) ∧
    ¬ ((-1 : Int) = 2) :=
  ⟨rfl, by decide⟩

/-- C4 amended: every ledger mutation method validates fully before mutating
— a raising call leaves the state exactly as found — with one exception:
`InventoryInfo.change_reserves` checks for a negative resulting reserve only
after updating `Reserved`, so that error (and only that one) leaves
`Reserved` already changed to `Reserved + amount`; its over-reserve check,
and every error path of `Agent.spend_money`, `Agent.change_reserves`,
`InventoryInfo.add_inventory` and `InventoryInfo.remove_inventory`, mutate
nothing. -/
theorem ledger_error_atomicity_except_inv_reserve :
    (∀ (a : AgentState) (amount : Int) (rt : ReserveType) (e : LedgerErr)
        (a' : AgentState), spendMoney a amount rt = .error (e, a') → a' = a) ∧
    (∀ (a : AgentState) (change : Int) (rt : ReserveType) (e : LedgerErr)
        (a' : AgentState), changeReserves a change rt = .error (e, a') → a' = a) ∧
    (∀ (inv : InventoryInfo) (amount cost : Int) (e : LedgerErr)
        (inv' : InventoryInfo), addInventory inv amount cost = .error (e, inv') → inv' = inv) ∧
    (∀ (inv : InventoryInfo) (amount : Int) (fr : Bool) (e : LedgerErr)
        (inv' : InventoryInfo), removeInventory inv amount fr = .error (e, inv') → inv' = inv) ∧
    (∀ (inv : InventoryInfo) (amount : Int) (e : LedgerErr) (inv' : InventoryInfo),
        invChangeReserves inv amount = .error (e, inv') →
          inv' = inv ∨ inv' = { inv with Reserved := inv.Reserved + amount }) := by
  refine ⟨?_, ?_, ?_, ?_, ?_⟩
  · intro a amount rt e a' h
    cases rt <;> simp only [spendMoney] at h <;> split_ifs at h <;> simp_all
  · intro a change rt e a' h
    cases rt <;> simp only [changeReserves] at h <;> split_ifs at h <;> simp_all
  · intro inv amount cost e inv' h
    simp only [addInventory] at h
    split_ifs at h
    simp_all
  · intro inv amount fr e inv' h
    simp only [removeInventory, finishRemove] at h
    split_ifs at h <;> simp_all
  · intro inv amount e inv' h
    simp only [invChangeReserves] at h
    split_ifs at h <;> simp_all

/-- Witness for the C4 amended theorem: the `NoMoneyError` path of
`spend_money` at a concrete input leaves the agent unchanged. -/
theorem ledger_error_atomicity_witness :
    spendMoney ⟨0, 0, 0, 0, 0, false, []⟩ 5 ReserveType.NONE
      = .error (.noMoney, ⟨0, 0, 0, 0, 0, false, []⟩) ∧
    (⟨0, 0, 0, 0, 0, false, []⟩ : AgentState) = ⟨0, 0, 0, 0, 0, false, []⟩ :=
  ⟨rfl, ledger_error_atomicity_except_inv_reserve.1 ⟨0, 0, 0, 0, 0, false, []⟩ 5
    ReserveType.NONE .noMoney ⟨0, 0, 0, 0, 0, false, []⟩ rfl⟩

/-- C10: `Agent.do_accounting` with `amount = 0` returns immediately, for
every operation string, order type, price and commodity: the agent state
(money, reserves and inventory alike) is returned untouched. -/
theorem do_accounting_zero_amount_noop (a : AgentState) (orderT : OrderType)
    (operation : String) (price cid : Int) :
    doAccounting a orderT operation 0 price cid = .ok a := by
  simp [doAccounting]

/-- C7: COGS computation of `InventoryInfo.remove_inventory`.  For any lot
with positive `Amount` and any removable `0 ≤ a ≤ Amount` the call succeeds
and returns `cogs = Cost` on full removal and
`cogs = round(Cost·a/Amount)` (round-half-even) otherwise, then decrements
`Cost` by `cogs` and `Amount` by `a` (in both the unreserved and the
reserved variant); concretely `(Amount=100, Cost=201)` minus 30 yields COGS
60 leaving `(70, 141)`, and removing the remaining 70 yields exactly 141
leaving `(0, 0)`. -/
theorem remove_inventory_cogs_spec :
    (∀ (inv : InventoryInfo) (a : Int),
        0 < inv.Amount → 0 ≤ a → a ≤ inv.Amount → a ≤ inv.Amount - inv.Reserved →
        removeInventory inv a false =
          .ok (if a = inv.Amount then inv.Cost else roundHalfEven (inv.Cost * a) inv.Amount,
               { inv with
                 Cost := inv.Cost -
                   (if a = inv.Amount then inv.Cost else roundHalfEven (inv.Cost * a) inv.Amount),
                 Amount := inv.Amount - a })) ∧
    (∀ (inv : InventoryInfo) (a : Int),
        0 < inv.Amount → 0 ≤ a → a ≤ inv.Amount → a ≤ inv.Reserved →
        removeInventory inv a true =
          .ok (if a = inv.Amount then inv.Cost else roundHalfEven (inv.Cost * a) inv.Amount,
               { inv with
                 Reserved := inv.Reserved - a,
                 Cost := inv.Cost -
                   (if a = inv.Amount then inv.Cost else roundHalfEven (inv.Cost * a) inv.Amount),
                 Amount := inv.Amount - a })) ∧
    removeInventory ⟨1, 100, 201, 0⟩ 30 false = .ok (60, ⟨1, 70, 141, 0⟩) ∧
    roundHalfEven (201 * 30) 100 = 60 ∧
    removeInventory ⟨1, 70, 141, 0⟩ 70 false = .ok (141, ⟨1, 0, 0, 0⟩) := by
  refine ⟨?_, ?_, rfl, rfl, rfl⟩
  · intro inv a h1 h2 h3 h4
    simp only [removeInventory]
    rw [if_neg (by omega), if_neg (by omega), if_pos trivial, if_neg (by omega)]
    rfl
  · intro inv a h1 h2 h3 h4
    simp only [removeInventory]
    rw [if_neg (by omega), if_neg (by omega), if_neg (by simp), if_neg (by omega)]
    rfl

/-- Witness for C7: the first concrete removal of the round-trip, obtained
from the universally quantified statement. -/
theorem remove_inventory_cogs_witness :
    (0 : Int) < 100 ∧
    removeInventory ⟨1, 100, 201, 0⟩ 30 false =
      .ok (if (30 : Int) = 100 then 201 else roundHalfEven (201 * 30) 100,
           { CommodityID := 1, Amount := 100 - 30,
             Cost := 201 - (if (30 : Int) = 100 then 201 else roundHalfEven (201 * 30) 100),
             Reserved := 0 }) :=
  ⟨by decide, remove_inventory_cogs_spec.1 ⟨1, 100, 201, 0⟩ 30 (by decide) (by decide)
    (by decide) (by decide)⟩

/-- Fuel no smaller than `limit - cnt` always suffices for the action-drain
loop when `cnt < limit`: the counter strictly increases every iteration and
the loop raises when it reaches the limit, so the Python `while True` cannot
spin forever. -/
theorem drainGo_isSome (handler : α → List α) (limit : Nat) :
    ∀ (fuel cnt : Nat) (queue : List α), cnt < limit → limit - cnt ≤ fuel →
      (drainGo handler limit fuel cnt queue).isSome = true := by
  intro fuel
  induction fuel with
  | zero => intro cnt queue h1 h2; omega
  | succ f ih =>
    intro cnt queue h1 h2
    match queue with
    | [] => rfl
    | a :: rest =>
      simp only [drainGo]
      split_ifs with hc
      · rfl
      · exact ih (cnt + 1) (rest ++ handler a) (by omega) (by omega)

/-- A successful drain starting below the limit processed strictly fewer
than `limit` actions. -/
theorem drainGo_ok_bound (handler : α → List α) (limit : Nat) :
    ∀ (fuel cnt : Nat) (queue : List α) (n : Nat),
      cnt < limit → drainGo handler limit fuel cnt queue = some (.ok n) → n < limit := by
  intro fuel
  induction fuel with
  | zero => intro cnt queue n h1 h2; simp [drainGo] at h2
  | succ f ih =>
    intro cnt queue n h1 h2
    match queue with
    | [] =>
      simp only [drainGo] at h2
      obtain rfl : cnt = n := by simpa using h2
      exact h1
    | a :: rest =>
      simp only [drainGo] at h2
      split_ifs at h2 with hc
      · simp at h2
      · exact ih (cnt + 1) (rest ++ handler a) n (by omega) h2

/-- A drain whose handler spawns no further actions completes successfully
whenever the queue holds fewer than `limit - cnt` actions. -/
theorem drainGo_no_spawn (limit : Nat) :
    ∀ (queue : List α) (fuel cnt : Nat),
      cnt + queue.length < limit → queue.length < fuel →
      drainGo (fun _ => []) limit fuel cnt queue = some (.ok (cnt + queue.length)) := by
  intro queue
  induction queue with
  | nil =>
    intro fuel cnt h1 h2
    match fuel, h2 with
    | f + 1, _ => simp [drainGo]
  | cons a rest ih =>
    intro fuel cnt h1 h2
    simp only [List.length_cons] at h1 h2 ⊢
    match fuel, h2 with
    | f + 1, h2 =>
      have hne : ¬ (cnt + 1 = limit) := by omega
      simp only [drainGo]
      rw [if_neg hne, List.append_nil, ih f (cnt + 1) (by omega) (by omega)]
      have hlen : cnt + 1 + rest.length = cnt + (rest.length + 1) := by omega
      rw [hlen]

/-- C9 amended: the drain loop of `process_event` always terminates under
the default ceiling — either the action queue empties or the
`ActionOverflow` `ValueError` is raised — and the error fires on the
iteration where the running count *reaches* `MaxActionLimit = 100`.  Hence a
successful run processes at most 99 actions, and a run whose total action
count is at most 99 completes without the error (a run of exactly 100
actions raises it; see the counterexample). -/
theorem action_ceiling_amended :
    (∀ (α : Type) (handler : α → List α) (queue : List α),
        (drainGo handler MaxActionLimit MaxActionLimit 0 queue).isSome = true) ∧
    (∀ (α : Type) (handler : α → List α) (queue : List α) (n : Nat),
        drainGo handler MaxActionLimit MaxActionLimit 0 queue = some (.ok n) →
          n < MaxActionLimit) ∧
    (∀ (α : Type) (queue : List α), queue.length < MaxActionLimit →
        drainGo (fun _ => []) MaxActionLimit MaxActionLimit 0 queue
          = some (.ok queue.length)) := by
  refine ⟨?_, ?_, ?_⟩
  · intro α handler queue
    exact drainGo_isSome handler MaxActionLimit MaxActionLimit 0 queue (by decide) (by omega)
  · intro α handler queue n h
    exact drainGo_ok_bound handler MaxActionLimit MaxActionLimit 0 queue n (by decide) h
  · intro α queue h
    have h0 := drainGo_no_spawn (α := α) MaxActionLimit queue MaxActionLimit 0
      (by omega) (by omega)
    simpa using h0

/-- C9 counterexample: a pipeline run of exactly 100 queued actions (none of
which spawns more) does not exceed the default ceiling of 100, yet the loop
raises the `ActionOverflow` `ValueError` on its 100th iteration instead of
completing. -/
theorem drain_raises_at_exactly_limit :
    (List.replicate 100 ()).length ≤ MaxActionLimit ∧
    drainGo (fun _ : Unit => []) MaxActionLimit MaxActionLimit 0 (List.replicate 100 ())
      = some (.error .actionOverflow) :=
  ⟨by decide, by set_option maxRecDepth 4000 in rfl⟩

/-- Witness for the C9 amended theorem: a five-action run completes and
reports five processed actions. -/
theorem action_ceiling_witness :
    (List.replicate 5 ()).length < MaxActionLimit ∧
    drainGo (fun _ : Unit => []) MaxActionLimit MaxActionLimit 0 (List.replicate 5 ())
      = some (.ok (List.replicate 5 ()).length) :=
  ⟨by decide, action_ceiling_amended.2.2 Unit (List.replicate 5 ()) (by decide)⟩

/-- C6 counterexample: neither half of the claim matches the program.  A due
repeating event whose target gid was never registered is *not* silently
dropped: `Simulation.get_entity`'s bare `GEntityDict[gid]` raises a plain
`KeyError`, which `except EntityDoesNotExist` cannot catch, so the exception
propagates out of `process`.  And a due repeating event whose target exists
but is marked dead is *not* dropped either: `IsDead` is never checked, so
the event fires normally and is re-queued at `CallTime + Repeat`. -/
theorem process_target_resolution_counterexample :
    processStep (fun _ s => .ok s) ⟨0, [⟨7, 0, some 1⟩], [], [], []⟩
      = .error .keyError ∧
    processStep (fun _ s => .ok s) ⟨0, [⟨7, 0, some 1⟩], [(7, true)], [], []⟩
      = .ok (true, ⟨0, [⟨7, 1, some 1⟩], [(7, true)], [], []⟩) := by
  refine ⟨rfl, ?_⟩
  simp only [processStep, simGetEntity]
  norm_num [queueEvent, insortRight, bisectRight, bisectRightGo, listInsert]

/-- C6 amended: the scheduler does not treat the two failures identically,
and neither is the claimed silent drop.  (1) A due event whose target gid is
unmapped makes `process` propagate a plain `KeyError` (the
`except EntityDoesNotExist` handler, meant to drop it, is unreachable from
target resolution because `Simulation.get_entity` is a bare dict access).
(2) A due event whose target resolves — including a dead entity, since
`IsDead` is never checked — fires like any other and, when repeating with a
sane period, is re-queued at `CallTime + Repeat`.  (3) The silent drop
(return `True`, no re-queue) happens exactly when the event's *body* raises
`EntityDoesNotExist`. -/
theorem process_unresolved_target_behaviour :
    (∀ (runBody : SchedEvent → SchedState → Except (SimExc × SchedState) SchedState)
        (s : SchedState) (e : SchedEvent) (rest : List SchedEvent),
        s.ClientCommands = [] → s.ClientMessages = [] →
        s.EventList = e :: rest → s.Time ≥ e.CallTime →
        simGetEntity s.Entities e.GID = .error () →
        processStep runBody s = .error .keyError) ∧
    (∀ (runBody : SchedEvent → SchedState → Except (SimExc × SchedState) SchedState)
        (s : SchedState) (e : SchedEvent) (rest : List SchedEvent)
        (p : Int × Bool) (s2 : SchedState) (r : ℚ),
        s.ClientCommands = [] → s.ClientMessages = [] →
        s.EventList = e :: rest → s.Time ≥ e.CallTime →
        simGetEntity s.Entities e.GID = .ok p →
        runBody e { s with EventList := rest } = .ok s2 →
        e.RepeatPeriod = some r → ¬ (r < (1 : ℚ) / 100) →
        processStep runBody s = .ok (true,
          { s2 with EventList :=
              queueEvent s2.EventList { e with CallTime := e.CallTime + r } })) ∧
    (∀ (runBody : SchedEvent → SchedState → Except (SimExc × SchedState) SchedState)
        (s : SchedState) (e : SchedEvent) (rest : List SchedEvent)
        (p : Int × Bool) (sE : SchedState),
        s.ClientCommands = [] → s.ClientMessages = [] →
        s.EventList = e :: rest → s.Time ≥ e.CallTime →
        simGetEntity s.Entities e.GID = .ok p →
        runBody e { s with EventList := rest } = .error (.entityDoesNotExist, sE) →
        processStep runBody s = .ok (true, sE)) := by
  refine ⟨?_, ?_, ?_⟩
  · intro runBody s e rest hc hm he ht hg
    obtain ⟨T, EL, EN, CC, CM⟩ := s
    simp only at hc hm he ht hg
    subst hc; subst hm; subst he
    simp only [processStep]
    rw [if_pos ht, hg]
  · intro runBody s e rest p s2 r hc hm he ht hg hb hr hrge
    obtain ⟨T, EL, EN, CC, CM⟩ := s
    simp only at hc hm he ht hg hb
    subst hc; subst hm; subst he
    simp only [processStep]
    rw [if_pos ht]
    simp only [hg, hb, hr]
    rw [if_neg hrge]
  · intro runBody s e rest p sE hc hm he ht hg hb
    obtain ⟨T, EL, EN, CC, CM⟩ := s
    simp only at hc hm he ht hg hb
    subst hc; subst hm; subst he
    simp only [processStep]
    rw [if_pos ht]
    simp only [hg, hb]

/-- Witness for the C6 amended theorem: a due repeating event aimed at an
unregistered entity id makes the processing step propagate the plain
`KeyError`. -/
theorem process_unresolved_target_witness :
    simGetEntity ([] : List (Int × Bool)) 7 = .error () ∧
    processStep (fun _ s => .ok s) ⟨0, [⟨7, 0, some 1⟩], [], [], []⟩
      = .error .keyError :=
  ⟨rfl, process_unresolved_target_behaviour.1 (fun _ s => .ok s)
    ⟨0, [⟨7, 0, some 1⟩], [], [], []⟩ ⟨7, 0, some 1⟩ [] rfl rfl rfl (by norm_num) rfl⟩

/-- Log threading of the buy-side matching loop: the accounting
notifications it emits are appended to whatever log it starts from. -/
theorem addBuyLoop_log_append (buyList : List Order) :
    ∀ (sells : List Order) (lp lt : Option Int) (log : List AcctEntry) (buyOrder : Order),
      (addBuyLoop buyList lp lt log buyOrder sells).2
        = log ++ (addBuyLoop buyList lp lt [] buyOrder sells).2 := by
  intro sells
  induction sells with
  | nil =>
    intro lp lt log buyOrder
    simp only [addBuyLoop]
    split_ifs <;> simp
  | cons s rest ih =>
    intro lp lt log buyOrder
    simp only [addBuyLoop]
    split_ifs with h1 h2 h3
    · simp
    · simp
    · simp
    · rw [ih _ _ (log ++ _), ih _ _ (([] : List AcctEntry) ++ _)]
      simp

/-- C5: matching executes at the resting order's price with
`fill = min(incomingRemaining, restingRemaining)`.  Whenever the incoming
buy's limit is at or above the best ask, `add_buy` notifies accounting with
exactly one buy-side and one sell-side `fill` at the resting price and the
min amount (right after the `add` notification); if the incoming amount is
below the resting amount the trade consumes the incoming order entirely,
decrements the resting head by that amount and leaves the book otherwise
unchanged.  Concretely, a resting sell (price 10, amount 10) against an
incoming buy (price 11, amount 15) trades 10 units at price 10, with one
buy-fill and one sell-fill of amount 10 at price 10 in the log, and leaves
the buy order resting at the head of the buy queue with amount 5. -/
theorem matching_at_resting_price :
    (∀ (m : MarketState) (buyOrder s : Order) (rest : List Order),
        m.SellList = s :: rest → ¬ (buyOrder.Price < s.Price) →
        ∃ t, (addBuy m buyOrder).2 =
          ⟨buyOrder.FirmGID, OrderType.BUY, "add", buyOrder.Amount, buyOrder.Price⟩ ::
          ⟨buyOrder.FirmGID, OrderType.BUY, "fill", min s.Amount buyOrder.Amount, s.Price⟩ ::
          ⟨s.FirmGID, OrderType.SELL, "fill", min s.Amount buyOrder.Amount, s.Price⟩ :: t) ∧
    (∀ (m : MarketState) (buyOrder s : Order) (rest : List Order),
        m.SellList = s :: rest → ¬ (buyOrder.Price < s.Price) →
        0 ≤ buyOrder.Amount → buyOrder.Amount < s.Amount →
        addBuy m buyOrder =
          ({ BuyList := m.BuyList,
             SellList := { s with Amount := s.Amount - buyOrder.Amount } :: rest,
             LastPrice := some s.Price, LastTime := some getTimeBase },
           [⟨buyOrder.FirmGID, OrderType.BUY, "add", buyOrder.Amount, buyOrder.Price⟩,
            ⟨buyOrder.FirmGID, OrderType.BUY, "fill", buyOrder.Amount, s.Price⟩,
            ⟨s.FirmGID, OrderType.SELL, "fill", buyOrder.Amount, s.Price⟩])) ∧
    addSell ⟨[], [], Option.none, Option.none⟩ ⟨10, 10, 1, -1, true⟩ =
      ({ BuyList := [], SellList := [⟨10, 10, 1, -1, true⟩],
         LastPrice := Option.none, LastTime := Option.none },
       [⟨1, OrderType.SELL, "add", 10, 10⟩]) ∧
    addBuy ⟨[], [⟨10, 10, 1, -1, true⟩], Option.none, Option.none⟩ ⟨11, 15, 3, -2, true⟩ =
      ({ BuyList := [⟨11, 5, 3, -2, true⟩], SellList := [],
         LastPrice := some 10, LastTime := some 0 },
       [⟨3, OrderType.BUY, "add", 15, 11⟩, ⟨3, OrderType.BUY, "fill", 10, 10⟩,
        ⟨1, OrderType.SELL, "fill", 10, 10⟩]) := by
  refine ⟨?_, ?_, rfl, rfl⟩
  · intro m buyOrder s rest hs hp
    unfold addBuy
    rw [hs]
    simp only [addBuyLoop]
    rw [if_neg hp]
    by_cases hz : buyOrder.Amount - min s.Amount buyOrder.Amount = 0
    · rw [if_pos hz]
      exact ⟨[], by simp⟩
    · rw [if_neg hz, addBuyLoop_log_append]
      exact ⟨_, rfl⟩
  · intro m buyOrder s rest hs hp h0 hlt
    unfold addBuy
    rw [hs]
    simp only [addBuyLoop]
    have hmin : min s.Amount buyOrder.Amount = buyOrder.Amount :=
      min_eq_right (le_of_lt hlt)
    rw [if_neg hp, hmin, if_pos (by omega : buyOrder.Amount - buyOrder.Amount = 0)]
    simp only [checkEmpty]
    rw [if_neg (by omega)]
    simp

/-- Witness for C5: an incoming buy (price 10, amount 4) against a resting
sell (price 10, amount 10) trades its whole amount at the resting price and
shrinks the resting head to 6. -/
theorem matching_at_resting_price_witness :
    (⟨[], [⟨10, 10, 1, -1, true⟩], Option.none, Option.none⟩ : MarketState).SellList
      = ⟨10, 10, 1, -1, true⟩ :: [] ∧
    addBuy ⟨[], [⟨10, 10, 1, -1, true⟩], Option.none, Option.none⟩ ⟨10, 4, 2, -3, true⟩ =
      ({ BuyList := [], SellList := [⟨10, 6, 1, -1, true⟩],
         LastPrice := some 10, LastTime := some getTimeBase },
       [⟨2, OrderType.BUY, "add", 4, 10⟩, ⟨2, OrderType.BUY, "fill", 4, 10⟩,
        ⟨1, OrderType.SELL, "fill", 4, 10⟩]) :=
  ⟨rfl, matching_at_resting_price.2.1 ⟨[], [⟨10, 10, 1, -1, true⟩], Option.none, Option.none⟩
    ⟨10, 4, 2, -3, true⟩ ⟨10, 10, 1, -1, true⟩ [] rfl (by decide) (by decide) (by decide)⟩

/-- Sortedness invariant maintained by `OrderQueue`: no later element of the
queue compares `__lt__`-before an earlier one (for buys: prices descending;
for sells: ascending). -/
def QueueSorted (lt : α → α → Bool) (l : List α) : Prop :=
  l.Pairwise (fun u v => lt v u = false)

instance (lt : α → α → Bool) (l : List α) : Decidable (QueueSorted lt l) := by
  unfold QueueSorted; infer_instance

/-- Characterisation of the `bisect_right` binary search on a sorted list:
given enough fuel and a bracket whose outside already satisfies the
dichotomy, the returned position has every earlier element not greater than
`x` (so `x` goes after its ties) and every later element strictly after `x`
in queue order.  The two hypotheses are the transitivity facts a strict
weak order provides. -/
theorem bisectRightGo_spec (lt : α → α → Bool) (l : List α) (x : α)
    (htr1 : ∀ a b c, lt c b = false → lt a b = true → lt a c = true)
    (htr2 : ∀ a b c, lt a b = false → lt b c = false → lt a c = false)
    (hsort : QueueSorted lt l) :
    ∀ (fuel lo hi : Nat), hi - lo ≤ fuel → lo ≤ hi → hi ≤ l.length →
      (∀ (i : Nat) (h : i < l.length), i < lo → lt x l[i] = false) →
      (∀ (i : Nat) (h : i < l.length), hi ≤ i → lt x l[i] = true) →
      lo ≤ bisectRightGo lt l x fuel lo hi ∧
      bisectRightGo lt l x fuel lo hi ≤ hi ∧
      (∀ (i : Nat) (h : i < l.length), i < bisectRightGo lt l x fuel lo hi →
        lt x l[i] = false) ∧
      (∀ (i : Nat) (h : i < l.length), bisectRightGo lt l x fuel lo hi ≤ i →
        lt x l[i] = true) := by
  have hpw := (List.pairwise_iff_getElem).mp hsort
  intro fuel
  induction fuel with
  | zero =>
    intro lo hi h1 h2 h3 hlo hhi
    obtain rfl : lo = hi := by omega
    simp only [bisectRightGo]
    exact ⟨le_refl _, le_refl _, hlo, hhi⟩
  | succ f ih =>
    intro lo hi h1 h2 h3 hlo hhi
    simp only [bisectRightGo]
    split_ifs with hlh hx
    · -- probe said x is before the middle element: shrink the bracket from above
      rw [List.getD_eq_getElem l x (by omega : (lo + hi) / 2 < l.length)] at hx
      have hhi' : ∀ (i : Nat) (h : i < l.length), (lo + hi) / 2 ≤ i → lt x l[i] = true := by
        intro i h hge
        rcases Nat.eq_or_lt_of_le hge with heq | hgt
        · subst heq; exact hx
        · exact htr1 x (l.get ⟨(lo + hi) / 2, by omega⟩) l[i]
            (hpw ((lo + hi) / 2) i (by omega) h hgt) hx
      have hres := ih lo ((lo + hi) / 2) (by omega) (by omega) (by omega) hlo hhi'
      exact ⟨hres.1, by omega, hres.2.2.1, hres.2.2.2⟩
    · -- probe said x is not before the middle element: shrink from below
      rw [List.getD_eq_getElem l x (by omega : (lo + hi) / 2 < l.length)] at hx
      have hxf : lt x (l.get ⟨(lo + hi) / 2, by omega⟩) = false := by
        simpa using hx
      have hlo' : ∀ (i : Nat) (h : i < l.length), i < (lo + hi) / 2 + 1 →
          lt x l[i] = false := by
        intro i h hi'
        rcases Nat.lt_or_ge i lo with hil | hige
        · exact hlo i h hil
        · rcases Nat.eq_or_lt_of_le (Nat.le_of_lt_succ hi') with heq | hgt
          · subst heq; exact hxf
          · exact htr2 x (l.get ⟨(lo + hi) / 2, by omega⟩) l[i] hxf
              (hpw i ((lo + hi) / 2) h (by omega) hgt)
      have hres := ih ((lo + hi) / 2 + 1) hi (by omega) (by omega) h3 hlo' hhi
      exact ⟨by omega, hres.2.1, hres.2.2.1, hres.2.2.2⟩
    · obtain rfl : lo = hi := by omega
      exact ⟨le_refl _, le_refl _, hlo, hhi⟩

/-- `bisect_right` on a sorted list: the position is in range, everything
before it is not greater than `x`, everything from it on is. -/
theorem bisectRight_spec (lt : α → α → Bool) (l : List α) (x : α)
    (htr1 : ∀ a b c, lt c b = false → lt a b = true → lt a c = true)
    (htr2 : ∀ a b c, lt a b = false → lt b c = false → lt a c = false)
    (hsort : QueueSorted lt l) :
    bisectRight lt l x ≤ l.length ∧
    (∀ (i : Nat) (h : i < l.length), i < bisectRight lt l x → lt x l[i] = false) ∧
    (∀ (i : Nat) (h : i < l.length), bisectRight lt l x ≤ i → lt x l[i] = true) := by
  have h := bisectRightGo_spec lt l x htr1 htr2 hsort l.length 0 l.length
    (by omega) (by omega) (le_refl _)
    (fun i h hi => absurd hi (by omega))
    (fun i h hi => absurd h (by omega))
  exact ⟨h.2.1, h.2.2.1, h.2.2.2⟩

/-- `insort_right` preserves the queue's sortedness (given the strict-weak-
order facts about the comparison). -/
theorem insortRight_sorted (lt : α → α → Bool)
    (hasym : ∀ a b, lt a b = true → lt b a = false)
    (htr1 : ∀ a b c, lt c b = false → lt a b = true → lt a c = true)
    (htr2 : ∀ a b c, lt a b = false → lt b c = false → lt a c = false)
    (l : List α) (x : α) (hsort : QueueSorted lt l) :
    QueueSorted lt (insortRight lt l x) := by
  obtain ⟨hple, hbefore, hafter⟩ := bisectRight_spec lt l x htr1 htr2 hsort
  have hpw := (List.pairwise_iff_getElem).mp hsort
  unfold insortRight listInsert
  rw [QueueSorted, List.pairwise_append]
  refine ⟨hsort.sublist (List.take_sublist _ l), ?_, ?_⟩
  · rw [List.pairwise_cons]
    refine ⟨?_, hsort.sublist (List.drop_sublist _ l)⟩
    intro v hv
    obtain ⟨j, hj, rfl⟩ := List.mem_iff_getElem.mp hv
    rw [List.getElem_drop]
    exact hasym _ _ (hafter (bisectRight lt l x + j) (by simp at hj; omega) (by omega))
  · intro u hu v hv
    obtain ⟨i, hi, rfl⟩ := List.mem_iff_getElem.mp hu
    rw [List.getElem_take]
    rcases List.mem_cons.mp hv with rfl | hv'
    · exact hbefore i (by simp at hi; omega) (by simp at hi; omega)
    · obtain ⟨j, hj, rfl⟩ := List.mem_iff_getElem.mp hv'
      rw [List.getElem_drop]
      exact hpw i (bisectRight lt l x + j) (by simp at hi; omega)
        (by simp at hj; omega) (by simp at hi; omega)

/-- C8: order-queue ordering.  For any sorted buy queue, inserting an order
keeps the queue sorted by descending price, and the insertion point lies
strictly after every order the new one does not beat (in particular after
every price tie — the stable FIFO tie-break); the mirror statement holds for
sell queues (ascending price).  Concretely, inserting buys priced 10, 8, 9
yields best bid 10 with the book ordered [10, 9, 8], and inserting a second
order priced 9 places it strictly between the existing 9 and the 8. -/
theorem order_queue_priority_sorted :
    (∀ (l : List Order) (x : Order), QueueSorted buyLT l →
        QueueSorted buyLT (insortRight buyLT l x) ∧
        (∀ (j : Nat) (h : j < l.length), buyLT x l[j] = false →
            j < bisectRight buyLT l x)) ∧
    (∀ (l : List Order) (x : Order), QueueSorted sellLT l →
        QueueSorted sellLT (insortRight sellLT l x) ∧
        (∀ (j : Nat) (h : j < l.length), sellLT x l[j] = false →
            j < bisectRight sellLT l x)) ∧
    insortRight buyLT [] (⟨10, 1, 0, -11, true⟩ : Order) = [⟨10, 1, 0, -11, true⟩] ∧
    insortRight buyLT [⟨10, 1, 0, -11, true⟩] ⟨8, 2, 1, -12, true⟩
      = [⟨10, 1, 0, -11, true⟩, ⟨8, 2, 1, -12, true⟩] ∧
    insortRight buyLT [⟨10, 1, 0, -11, true⟩, ⟨8, 2, 1, -12, true⟩] ⟨9, 1, 2, -13, true⟩
      = [⟨10, 1, 0, -11, true⟩, ⟨9, 1, 2, -13, true⟩, ⟨8, 2, 1, -12, true⟩] ∧
    insortRight buyLT
        [⟨10, 1, 0, -11, true⟩, ⟨9, 1, 2, -13, true⟩, ⟨8, 2, 1, -12, true⟩]
        ⟨9, 1, 3, -14, true⟩
      = [⟨10, 1, 0, -11, true⟩, ⟨9, 1, 2, -13, true⟩, ⟨9, 1, 3, -14, true⟩,
         ⟨8, 2, 1, -12, true⟩] := by
  have hb1 : ∀ a b c : Order, buyLT c b = false → buyLT a b = true → buyLT a c = true := by
    intro a b c h1 h2; simp only [buyLT, decide_eq_false_iff_not, decide_eq_true_eq] at *
    omega
  have hb2 : ∀ a b c : Order, buyLT a b = false → buyLT b c = false → buyLT a c = false := by
    intro a b c h1 h2; simp only [buyLT, decide_eq_false_iff_not, decide_eq_true_eq] at *
    omega
  have hbasym : ∀ a b : Order, buyLT a b = true → buyLT b a = false := by
    intro a b h; simp only [buyLT, decide_eq_false_iff_not, decide_eq_true_eq] at *
    omega
  have hs1 : ∀ a b c : Order, sellLT c b = false → sellLT a b = true → sellLT a c = true := by
    intro a b c h1 h2; simp only [sellLT, decide_eq_false_iff_not, decide_eq_true_eq] at *
    omega
  have hs2 : ∀ a b c : Order, sellLT a b = false → sellLT b c = false → sellLT a c = false := by
    intro a b c h1 h2; simp only [sellLT, decide_eq_false_iff_not, decide_eq_true_eq] at *
    omega
  have hsasym : ∀ a b : Order, sellLT a b = true → sellLT b a = false := by
    intro a b h; simp only [sellLT, decide_eq_false_iff_not, decide_eq_true_eq] at *
    omega
  refine ⟨?_, ?_, by decide, by decide, by decide, by decide⟩
  · intro l x hsort
    refine ⟨insortRight_sorted buyLT hbasym hb1 hb2 l x hsort, ?_⟩
    intro j h hfalse
    by_contra hge
    have htrue := (bisectRight_spec buyLT l x hb1 hb2 hsort).2.2 j h (by omega)
    rw [htrue] at hfalse
    simp at hfalse
  · intro l x hsort
    refine ⟨insortRight_sorted sellLT hsasym hs1 hs2 l x hsort, ?_⟩
    intro j h hfalse
    by_contra hge
    have htrue := (bisectRight_spec sellLT l x hs1 hs2 hsort).2.2 j h (by omega)
    rw [htrue] at hfalse
    simp at hfalse

/-- Witness for C8: inserting a 9-priced order into the sorted buy queue
[10, 8] keeps the queue sorted. -/
theorem order_queue_priority_witness :
    QueueSorted buyLT [⟨10, 1, 0, -11, true⟩, ⟨8, 2, 1, -12, true⟩] ∧
    QueueSorted buyLT
      (insortRight buyLT [⟨10, 1, 0, -11, true⟩, ⟨8, 2, 1, -12, true⟩]
        ⟨9, 1, 2, -13, true⟩) :=
  ⟨by decide,
   (order_queue_priority_sorted.1 [⟨10, 1, 0, -11, true⟩, ⟨8, 2, 1, -12, true⟩]
     ⟨9, 1, 2, -13, true⟩ (by decide)).1⟩

end ABM
